import Mathlib

/-!
Shallow embedding of `markdown_to_pdf_converter.py` (class `MarkdownToPDFConverter`)
and proofs about its image pipeline, embedder, document assembler and
PDF orchestration.  External collaborators (PIL, requests, the filesystem,
the markdown library, pdfkit, the OS unlink call) are modelled as explicit
oracles passed in as parameters; the control flow of the repository is
translated statement by statement.
-/

namespace MarkdownToPDFConverter

/-- Color modes of decoded images, a representative subset of PIL modes.
`RGBA`, `LA` and `P` are the modes the converter flattens; `I` and `F`
are modes PIL cannot write as JPEG. -/
inductive ImageMode
  | RGB
  | RGBA
  | LA
  | P
  | L
  | CMYK
  | I
  | F
deriving DecidableEq, Repr

/-- Encoded-image file formats relevant to the model. -/
inductive ImageFormat
  | JPEG
  | PNG
  | GIF
  | BMP
deriving DecidableEq, Repr

/-- Model of a decoded PIL image: its pixel dimensions and color mode. -/
structure PILImage where
  width : Nat
  height : Nat
  mode : ImageMode
deriving DecidableEq, Repr

/-- Model of a Python byte string holding image data: either bytes that no
decoder accepts (`raw`), or a well-formed encoded image file, characterized
by its format, the image it decodes to, and the encoder parameters that
produced it. -/
inductive ImageData
  | raw (bytes : List Nat)
  | encoded (format : ImageFormat) (image : PILImage) (quality : Nat) (optimized : Bool)
deriving DecidableEq, Repr

/-- Model of `PIL.Image.open(io.BytesIO(image_data))`: decoding succeeds
exactly on well-formed encoded data and raises (here: `none`) otherwise. -/
def pilOpen : ImageData → Option PILImage
  | .raw _ => none
  | .encoded _ image _ _ => some image

/-- Model of `img.convert` to RGB: dimensions preserved, mode flattened. -/
def pilConvertRGB (img : PILImage) : PILImage :=
  { img with mode := ImageMode.RGB }

/-- Model of `img.resize((w, h), Image.Resampling.LANCZOS)`: mode preserved. -/
def pilResize (img : PILImage) (w h : Nat) : PILImage :=
  { img with width := w, height := h }

/-- Modes PIL can write as JPEG (`RGB`, `L`, `CMYK`); `img.save` with format JPEG
raises OSError on the others. -/
def jpegWritable : ImageMode → Bool
  | .RGB => true
  | .L => true
  | .CMYK => true
  | _ => false

/-- Model of `img.save(output, format=JPEG, quality=quality, optimize=True)`
followed by `output.getvalue()`: produces a JPEG-encoded byte string, or
raises (`none`) when the mode is not JPEG-writable. -/
def pilSaveJPEG (img : PILImage) (quality : Nat) : Option ImageData :=
  if jpegWritable img.mode then some (ImageData.encoded ImageFormat.JPEG img quality true) else none

/-- The modes tested by `if img.mode in (RGBA, LA, P)`. -/
def needsConvert : ImageMode → Bool
  | .RGBA => true
  | .LA => true
  | .P => true
  | _ => false

/-- Python default value of the `max_width` parameter of `optimize_image`. -/
def maxWidthDefault : Nat := 800

/-- Python default value of the `quality` parameter of `optimize_image`. -/
def qualityDefault : Nat := 85

/-- Model of `MarkdownToPDFConverter.optimize_image`.  The whole body is
wrapped in `try/except Exception: return image_data`, so a decode failure or
a save failure returns the original bytes.  The float expression
`int(img.height * (max_width / img.width))` is modelled by the exact
rational floor `img.height * max_width / img.width` (Nat division). -/
def optimize_image (image_data : ImageData) (max_width quality : Nat) : ImageData :=
  match pilOpen image_data with
  | none => image_data
  | some img0 =>
    let img1 := if needsConvert img0.mode then pilConvertRGB img0 else img0
    let img2 :=
      if max_width < img1.width then
        pilResize img1 max_width (img1.height * max_width / img1.width)
      else img1
    match pilSaveJPEG img2 quality with
    | none => image_data
    | some out => out

/-- Round-to-nearest of the fraction `num / den`, the height formula the
spec claims (`round(original_height * max_width / original_width)`).
Stated from the words of the spec, for comparison with the behavior of the code. -/
def roundNearest (num den : Nat) : Nat :=
  (2 * num + den) / (2 * den)

/-- The color mode after the normalization step of `optimize_image`. -/
def normalizedMode (m : ImageMode) : ImageMode :=
  if needsConvert m then ImageMode.RGB else m

/-- Does the character list `hay` begin with `lead`? (model of `str.startswith`). -/
def leadMatch : List Char → List Char → Bool
  | _, [] => true
  | [], _ :: _ => false
  | a :: as, b :: bs => a == b && leadMatch as bs

/-- Model of Python `s.startswith(lead)` on strings. -/
def strStarts (s lead : String) : Bool :=
  leadMatch s.data lead.data

/-- Does `needle` occur as a contiguous substring of `hay`? -/
def subMatch (needle : List Char) : List Char → Bool
  | [] => needle.isEmpty
  | c :: rest => leadMatch (c :: rest) needle || subMatch needle rest

/-- Model of Python `needle in s` on strings. -/
def strHas (s needle : String) : Bool :=
  subMatch needle.data s.data

/-- Model of `url.startswith` checked against the two network scheme
heads, `http://` and `https://`. -/
def isNetworkUrl (url : String) : Bool :=
  strStarts url "http://" || strStarts url "https://"

/-- Model of POSIX `os.path.isabs`. -/
def isAbsPath (p : String) : Bool :=
  strStarts p "/"

/-- Model of POSIX `os.path.dirname`: everything before the last slash
(keeping a run of leading slashes, stripping a trailing run otherwise). -/
def pyDirname (p : String) : String :=
  let head := (p.data.reverse.dropWhile (fun c => c ≠ '/')).reverse
  if head.isEmpty then ""
  else if head.all (fun c => c = '/') then String.mk head
  else String.mk ((head.reverse.dropWhile (fun c => c = '/')).reverse)

/-- Does the string end with character `c`? -/
def strEndsWithChar (s : String) (c : Char) : Bool :=
  match s.data.reverse with
  | [] => false
  | d :: _ => d == c

/-- Model of POSIX `os.path.join` for two components. -/
def pyPathJoin (a b : String) : String :=
  if isAbsPath b then b
  else if a = "" then b
  else if strEndsWithChar a '/' then a ++ b
  else a ++ "/" ++ b

/-- Truthiness of the optional `base_path` argument (`if base_path and ...`):
`None` and the empty string are falsy. -/
def basePathTruthy : Option String → Bool
  | none => false
  | some s => !(s == "")

/-- The `local_path` computed by `download_image` for a non-network reference:
joined against `os.path.dirname(base_path)` when `base_path` is truthy and
the reference is not absolute, the reference itself otherwise. -/
def resolveLocalPath (url : String) (base_path : Option String) : String :=
  if basePathTruthy base_path && !(isAbsPath url) then
    pyPathJoin (pyDirname (base_path.getD "")) url
  else url

/-- Outcome of `requests.get(url, headers=..., timeout=30)`: either a response
with a final status code and body, or a raised transport error. -/
inductive HttpOutcome
  | response (status : Nat) (body : ImageData)
  | failure
deriving DecidableEq

/-- Model of `MarkdownToPDFConverter.download_image`.  The filesystem is the
oracle `fs` (mapping a path to its content when the path exists), the network
is the oracle `http`.  The whole body runs under `try/except Exception:
return None`: `response.raise_for_status()` raising (status 400–599) and
transport errors both yield `none`. -/
def download_image (fs : String → Option ImageData) (http : String → HttpOutcome)
    (url : String) (base_path : Option String) : Option ImageData :=
  if !(isNetworkUrl url) then
    fs (resolveLocalPath url base_path)
  else
    match http url with
    | .failure => none
    | .response status body =>
      if 400 ≤ status ∧ status < 600 then none else some body

/-- Base64 alphabet used by `base64.b64encode`. -/
def b64Alphabet : List Char :=
  "ABCDEFGHIJKLMNOPQRSTUVWXYZabcdefghijklmnopqrstuvwxyz0123456789+/".data

/-- The base64 digit for a 6-bit value. -/
def b64Digit (n : Nat) : Char :=
  b64Alphabet.getD n 'A'

/-- Standard base64 encoding of a byte list (model of `base64.b64encode`),
processing three bytes into four digits with `=` padding. -/
def b64Chunks : List Nat → List Char
  | [] => []
  | [a] => [b64Digit (a / 4), b64Digit (a % 4 * 16), '=', '=']
  | [a, b] => [b64Digit (a / 4), b64Digit (a % 4 * 16 + b / 16), b64Digit (b % 16 * 4), '=']
  | a :: b :: c :: rest =>
    b64Digit (a / 4) :: b64Digit (a % 4 * 16 + b / 16) ::
      b64Digit (b % 16 * 4 + c / 64) :: b64Digit (c % 64) :: b64Chunks rest

/-- Model of `base64.b64encode` of a byte list, decoded back to text. -/
def b64String (bytes_ : List Nat) : String :=
  String.mk (b64Chunks bytes_)

/-- A numeric code per image format, for the modelled encoder byte stream. -/
def formatCode : ImageFormat → Nat
  | .JPEG => 0
  | .PNG => 1
  | .GIF => 2
  | .BMP => 3

/-- A numeric code per color mode, for the modelled encoder byte stream. -/
def modeCode : ImageMode → Nat
  | .RGB => 0
  | .RGBA => 1
  | .LA => 2
  | .P => 3
  | .L => 4
  | .CMYK => 5
  | .I => 6
  | .F => 7

/-- The byte content of an image value.  Undecodable data keeps its own
bytes; for a well-formed encoded file the (opaque) encoder output stream is
modelled as a canonical serialization of its characteristics. -/
def imageBytes : ImageData → List Nat
  | .raw bytes => bytes
  | .encoded f img q opt =>
    [formatCode f, img.width / 256, img.width % 256, img.height / 256, img.height % 256,
     modeCode img.mode, q % 256, if opt then 1 else 0]

/-- Truthiness of a Python byte string (`if image_data:`): empty bytes are
falsy, everything else truthy. -/
def imageDataTruthy : ImageData → Bool
  | .raw [] => false
  | _ => true

/-- An `<img>` element as the embedder sees it: its `src` and `style`
attributes (absent or present) plus all attributes the code never touches. -/
structure ImgTag where
  src : Option String
  style : Option String
  otherAttrs : List (String × String)
deriving DecidableEq

/-- A node of the parsed HTML document: non-image markup passes through
`str(soup)` unchanged; `<img>` elements are rewritten in place. -/
inductive HtmlNode
  | text (content : String)
  | img (tag : ImgTag)
deriving DecidableEq

/-- The per-`<img>` body of the loop in `embed_images_in_html`: skip when
`src` is absent or empty, skip when the resolver yields no (truthy) bytes,
otherwise transcode with the built-in defaults, rewrite `src` as a JPEG data
URI and ensure a responsive style declaration. -/
def embedImgTag (dl : String → Option ImageData) (tag : ImgTag) : ImgTag :=
  match tag.src with
  | none => tag
  | some src =>
    if src = "" then tag
    else
      match dl src with
      | none => tag
      | some image_data =>
        if imageDataTruthy image_data then
          let optimized_data := optimize_image image_data maxWidthDefault qualityDefault
          let base64_data := b64String (imageBytes optimized_data)
          let newSrc := "data:image/jpeg;base64," ++ base64_data
          let style0 := tag.style.getD ""
          let style1 :=
            if strHas style0 "max-width" then style0
            else style0 ++ "max-width: 100%; height: auto;"
          { tag with src := some newSrc, style := some style1 }
        else tag

/-- One node of the document under the embedder. -/
def embedNode (fs : String → Option ImageData) (http : String → HttpOutcome)
    (base_path : Option String) : HtmlNode → HtmlNode
  | .text content => .text content
  | .img tag => .img (embedImgTag (fun u => download_image fs http u base_path) tag)

/-- Model of `MarkdownToPDFConverter.embed_images_in_html`: every `<img>`
element is processed independently in document order; everything else is
serialized back unchanged. -/
def embed_images_in_html (fs : String → Option ImageData) (http : String → HttpOutcome)
    (html : List HtmlNode) (base_path : Option String) : List HtmlNode :=
  html.map (embedNode fs http base_path)

/-- The `css_styles` literal of `create_full_html`, transcribed from the
source (CSS braces written as escapes, quotes as `\x27`). -/
def css_styles : String :=
"
        <style>
            body \x7b
                font-family: -apple-system, BlinkMacSystemFont, \x27Segoe UI\x27, Roboto, sans-serif;
                line-height: 1.6;
                color: #333;
                max-width: 100%;
                margin: 0;
                padding: 20px;
            \x7d

            h1, h2, h3, h4, h5, h6 \x7b
                color: #2c3e50;
                margin-top: 2em;
                margin-bottom: 1em;
            \x7d

            h1 \x7b font-size: 2.5em; border-bottom: 2px solid #3498db; padding-bottom: 10px; \x7d
            h2 \x7b font-size: 2em; border-bottom: 1px solid #bdc3c7; padding-bottom: 5px; \x7d
            h3 \x7b font-size: 1.5em; \x7d

            p \x7b margin-bottom: 1em; text-align: justify; \x7d

            img \x7b
                max-width: 100%;
                height: auto;
                display: block;
                margin: 20px auto;
                border-radius: 5px;
                box-shadow: 0 2px 10px rgba(0,0,0,0.1);
            \x7d

            code \x7b
                background-color: #f8f9fa;
                padding: 2px 4px;
                border-radius: 3px;
                font-family: \x27Courier New\x27, monospace;
                font-size: 0.9em;
            \x7d

            pre \x7b
                background-color: #f8f9fa;
                padding: 15px;
                border-radius: 5px;
                border-left: 4px solid #3498db;
                overflow-x: auto;
                margin: 1em 0;
            \x7d

            pre code \x7b
                background: none;
                padding: 0;
            \x7d

            table \x7b
                border-collapse: collapse;
                width: 100%;
                margin: 1em 0;
            \x7d

            th, td \x7b
                border: 1px solid #ddd;
                padding: 12px;
                text-align: left;
            \x7d

            th \x7b
                background-color: #f2f2f2;
                font-weight: bold;
            \x7d

            blockquote \x7b
                border-left: 4px solid #3498db;
                margin: 1em 0;
                padding-left: 20px;
                color: #666;
                font-style: italic;
            \x7d

            ul, ol \x7b
                margin: 1em 0;
                padding-left: 2em;
            \x7d

            li \x7b
                margin-bottom: 0.5em;
            \x7d

            a \x7b
                color: #3498db;
                text-decoration: none;
            \x7d

            a:hover \x7b
                text-decoration: underline;
            \x7d
        </style>
        "

/-- The literal chunk of the `full_html` f-string before the interpolated
title. -/
def fullHtmlHead : String :=
"
        <!DOCTYPE html>
        <html>
        <head>
            <meta charset=\"UTF-8\">
            <title>"

/-- The literal chunk of the `full_html` f-string between the title and the
interpolated `css_styles`. -/
def fullHtmlAfterTitle : String :=
"</title>
            "

/-- The literal chunk of the `full_html` f-string between `css_styles` and the
interpolated body fragment. -/
def fullHtmlAfterCss : String :=
"
        </head>
        <body>
            "

/-- The literal chunk of the `full_html` f-string after the body fragment. -/
def fullHtmlTail : String :=
"
        </body>
        </html>
        "

/-- Python default value of the `title` parameter of `create_full_html`; it is a
default argument, applied only when the caller omits the argument. -/
def createFullHtmlDefaultTitle : String := "Converted Document"

/-- Model of `MarkdownToPDFConverter.create_full_html`: the f-string template
as concatenation of its literal chunks and interpolations. -/
def create_full_html (html_content title : String) : String :=
  fullHtmlHead ++ title ++ fullHtmlAfterTitle ++ css_styles ++ fullHtmlAfterCss
    ++ html_content ++ fullHtmlTail

/-- The final path component of a path string (model of `PurePath.name`). -/
def pathName (p : String) : String :=
  String.mk ((p.data.reverse.takeWhile (fun c => c ≠ '/')).reverse)

/-- `PurePath.stem` on a file name: the name without its last suffix, where a
suffix needs a dot that is neither the first nor the last character. -/
def stemOfName (name : List Char) : List Char :=
  let afterDot := name.reverse.takeWhile (fun c => c ≠ '.')
  if afterDot.length = name.length then name
  else
    let i := name.length - afterDot.length - 1
    if 0 < i ∧ i < name.length - 1 then name.take i else name

/-- Model of `pathlib.Path(p).stem`. -/
def pathStem (p : String) : String :=
  String.mk (stemOfName (pathName p).data)

/-- Model of `str(pathlib.Path(p).parent)` for paths without redundant
slashes: the prefix before the last slash, `/` for a top-level absolute path,
`.` when there is no slash. -/
def pathParentStr (p : String) : String :=
  let pre := (p.data.reverse.dropWhile (fun c => c ≠ '/')).reverse
  if pre.isEmpty then "."
  else if pre = ['/'] then "/"
  else String.mk pre.dropLast

/-- Model of the pathlib `/` operator, `Path(a) / b`, for a relative second
component: joining onto `.` drops it, joining onto `/` keeps the single
slash. -/
def pathlibJoin (a b : String) : String :=
  if a = "." then b
  else if a = "/" then "/" ++ b
  else a ++ "/" ++ b

/-- The default option set installed by `__init__` into `self.pdf_options`
(flag-only options carry no value). -/
def pdf_options : List (String × Option String) :=
  [("page-size", some "A4"),
   ("margin-top", some "0.75in"),
   ("margin-right", some "0.75in"),
   ("margin-bottom", some "0.75in"),
   ("margin-left", some "0.75in"),
   ("encoding", some "UTF-8"),
   ("no-outline", none),
   ("enable-local-file-access", none)]

/-- Lookup of an option key in an option list (model of dict access). -/
def optFind (key : String) : List (String × Option String) → Option (Option String)
  | [] => none
  | (k, v) :: rest => if k = key then some v else optFind key rest

/-- Oracles for the effectful stages of `convert_to_pdf`.  `none` / `false`
means the corresponding library call raised an exception:
`readFile` models `read_markdown_file`, `mdToHtml` the markdown library,
`embedHtml` the embedding step at the string level (html, base path),
`tempCreate` the path `tempfile.NamedTemporaryFile` allocates (and whether
it succeeds), `writeOk` whether `temp_html.write(...)` of the given content
to the given path succeeds, and `renderOk` whether `pdfkit.from_file`
succeeds. -/
structure StageEnv where
  readFile : String → Option String
  mdToHtml : String → Option String
  embedHtml : String → String → Option String
  tempCreate : Option String
  writeOk : String → String → Bool
  renderOk : Bool

/-- The title used by `convert_to_pdf`: `if not title: title =
Path(markdown_file_path).stem` (both `None` and the empty string are
falsy). -/
def effectiveTitle (title : Option String) (markdown_file_path : String) : String :=
  match title with
  | none => pathStem markdown_file_path
  | some s => if s = "" then pathStem markdown_file_path else s

/-- The output path used by `convert_to_pdf`: `if not output_pdf_path:
output_pdf_path = md_path.parent / f"{md_path.stem}.pdf"` (both `None` and
the empty string are falsy). -/
def effectiveOutPath (output_pdf_path : Option String) (markdown_file_path : String) : String :=
  match output_pdf_path with
  | none => pathlibJoin (pathParentStr markdown_file_path)
              (pathStem markdown_file_path ++ ".pdf")
  | some o =>
    if o = "" then
      pathlibJoin (pathParentStr markdown_file_path)
        (pathStem markdown_file_path ++ ".pdf")
    else o

/-- Observable outcome of one `convert_to_pdf` run: the returned value or
raised error, the `temp_files` list of the converter, the set of temporary files
present on disk, and ghost observations of the title passed to
`create_full_html`, of the renderer invocation (temp path, output path,
options), and of the path `NamedTemporaryFile` actually created. -/
structure RunResult where
  result : Except String String
  temp_files : List String
  disk : List String
  titleUsed : Option String
  renderArgs : Option (String × String × List (String × Option String))
  createdTemp : Option String

/-- The `try` body of `convert_to_pdf`, before the `finally` block runs:
read, render markup, embed images, default the title (`if not title`, so
`None` and `""` both default to the source stem), assemble the document,
default the output path (`if not output_pdf_path`), create and write the
temporary HTML file (the file appears on disk when `NamedTemporaryFile`
opens it; it is appended to `self.temp_files` only after the write
succeeded), and invoke the renderer with `self.pdf_options`.  Any raise is
wrapped into `Exception("Error converting to PDF: ...")`. -/
def convertBody (env : StageEnv) (markdown_file_path : String)
    (output_pdf_path title : Option String)
    (temp0 disk0 : List String) : RunResult :=
  match env.readFile markdown_file_path with
  | none =>
    { result := Except.error "Error converting to PDF: Error reading markdown file",
      temp_files := temp0, disk := disk0, titleUsed := none, renderArgs := none,
      createdTemp := none }
  | some markdown_content =>
    match env.mdToHtml markdown_content with
    | none =>
      { result := Except.error "Error converting to PDF: markdown conversion failed",
        temp_files := temp0, disk := disk0, titleUsed := none, renderArgs := none,
        createdTemp := none }
    | some html_content =>
      match env.embedHtml html_content markdown_file_path with
      | none =>
        { result := Except.error "Error converting to PDF: image embedding failed",
          temp_files := temp0, disk := disk0, titleUsed := none, renderArgs := none,
          createdTemp := none }
      | some html_with_images =>
        let t := effectiveTitle title markdown_file_path
        let full_html := create_full_html html_with_images t
        let outPath := effectiveOutPath output_pdf_path markdown_file_path
        match env.tempCreate with
        | none =>
          { result := Except.error "Error converting to PDF: could not create temporary file",
            temp_files := temp0, disk := disk0, titleUsed := some t, renderArgs := none,
            createdTemp := none }
        | some temp_html_path =>
          let disk1 := disk0 ++ [temp_html_path]
          if env.writeOk temp_html_path full_html then
            let temps1 := temp0 ++ [temp_html_path]
            if env.renderOk then
              { result := Except.ok outPath, temp_files := temps1, disk := disk1,
                titleUsed := some t,
                renderArgs := some (temp_html_path, outPath, pdf_options),
                createdTemp := some temp_html_path }
            else
              { result := Except.error "Error converting to PDF: wkhtmltopdf failed",
                temp_files := temps1, disk := disk1, titleUsed := some t,
                renderArgs := some (temp_html_path, outPath, pdf_options),
                createdTemp := some temp_html_path }
          else
            { result := Except.error "Error converting to PDF: writing temporary file failed",
              temp_files := temp0, disk := disk1, titleUsed := some t, renderArgs := none,
              createdTemp := some temp_html_path }

/-- Model of the loop of `MarkdownToPDFConverter.cleanup` over `self.temp_files`:
per file, if it exists try to unlink it (success given by the `unlinkOk`
oracle); any exception is swallowed.  Returns the disk contents afterwards;
the function is total, so cleanup never throws. -/
def cleanup (unlinkOk : String → Bool) : List String → List String → List String
  | [], disk => disk
  | f :: rest, disk =>
    let disk1 :=
      if f ∈ disk then (if unlinkOk f then disk.filter (fun g => g ≠ f) else disk)
      else disk
    cleanup unlinkOk rest disk1

/-- Model of `MarkdownToPDFConverter.convert_to_pdf`: run the `try` body,
then (`finally`) run `cleanup`, which resets `self.temp_files` to `[]`; the
result of the body is returned or re-raised unchanged. -/
def convert_to_pdf (env : StageEnv) (unlinkOk : String → Bool)
    (markdown_file_path : String) (output_pdf_path title : Option String)
    (temp0 disk0 : List String) : RunResult :=
  let body := convertBody env markdown_file_path output_pdf_path title temp0 disk0
  { result := body.result,
    temp_files := [],
    disk := cleanup unlinkOk body.temp_files body.disk,
    titleUsed := body.titleUsed,
    renderArgs := body.renderArgs,
    createdTemp := body.createdTemp }

/-- A filesystem oracle with no files (for concrete instantiations). -/
def fsEmpty : String → Option ImageData := fun _ => none

/-- A filesystem oracle holding one image file under `/docs/images/b.png`. -/
def fsOneImage : String → Option ImageData := fun p =>
  if p = "/docs/images/b.png" then
    some (ImageData.encoded ImageFormat.PNG ⟨10, 10, ImageMode.RGB⟩ 9 false)
  else none

/-- A network oracle where every request raises a transport error. -/
def httpDown : String → HttpOutcome := fun _ => HttpOutcome.failure

/-- A network oracle answering 404 to every request. -/
def http404 : String → HttpOutcome := fun _ =>
  HttpOutcome.response 404 (ImageData.raw [])

/-- A network oracle answering 200 with a fixed PNG body. -/
def http200 : String → HttpOutcome := fun _ =>
  HttpOutcome.response 200 (ImageData.encoded ImageFormat.PNG ⟨20, 20, ImageMode.P⟩ 9 false)

/-- A concrete image tag with an unresolvable relative reference. -/
def tagBrokenImage : ImgTag :=
  { src := some "images/a.png", style := none, otherAttrs := [] }

/-- A concrete two-node document: a text node and one unresolvable image. -/
def docBroken : List HtmlNode :=
  [HtmlNode.text "para", HtmlNode.img tagBrokenImage]

/-- A concrete image tag already carrying a data-URI source. -/
def tagDataUri : ImgTag :=
  { src := some "data:image/jpeg;base64,AAAA",
    style := some "max-width: 100%; height: auto;",
    otherAttrs := [] }

/-- A concrete document whose single image already carries a data URI. -/
def docDataUri : List HtmlNode :=
  [HtmlNode.img tagDataUri]

/-- A concrete image tag referencing `images/b.png` relatively. -/
def tagLocalImage : ImgTag :=
  { src := some "images/b.png", style := none, otherAttrs := [("alt", "b")] }

/-- A stage environment in which every stage succeeds. -/
def stagesAllOk : StageEnv :=
  { readFile := fun _ => some "# sample",
    mdToHtml := fun h => some h,
    embedHtml := fun h _ => some h,
    tempCreate := some "/tmp/tmpabc.html",
    writeOk := fun _ _ => true,
    renderOk := true }

/-- A stage environment in which writing the temporary HTML file raises
(after `NamedTemporaryFile` has already created the file on disk). -/
def stagesWriteFails : StageEnv :=
  { readFile := fun _ => some "# sample",
    mdToHtml := fun h => some h,
    embedHtml := fun h _ => some h,
    tempCreate := some "/tmp/tmpabc.html",
    writeOk := fun _ _ => false,
    renderOk := true }

/- ------------------------------------------------------------------ -/
/- Helper lemmas                                                       -/
/- ------------------------------------------------------------------ -/

theorem leadMatch_cons (a : Char) (as : List Char) (b : Char) (bs : List Char) :
    leadMatch (a :: as) (b :: bs) = (a == b && leadMatch as bs) := rfl

theorem takeWhile_all_append (p : Char → Bool) (l : List Char)
    (hl : ∀ c ∈ l, p c = true) (x : Char) (hx : p x = false) (rest : List Char) :
    (l ++ x :: rest).takeWhile p = l := by
  induction l with
  | nil => simp [List.takeWhile_cons, hx]
  | cons a as ih =>
    have ha : p a = true := hl a (List.mem_cons.mpr (Or.inl rfl))
    have has : ∀ c ∈ as, p c = true := fun c hc => hl c (List.mem_cons.mpr (Or.inr hc))
    simp [List.takeWhile_cons, ha, ih has]

theorem dropWhile_all_append (p : Char → Bool) (l : List Char)
    (hl : ∀ c ∈ l, p c = true) (x : Char) (hx : p x = false) (rest : List Char) :
    (l ++ x :: rest).dropWhile p = x :: rest := by
  induction l with
  | nil => simp [List.dropWhile_cons, hx]
  | cons a as ih =>
    have ha : p a = true := hl a (List.mem_cons.mpr (Or.inl rfl))
    have has : ∀ c ∈ as, p c = true := fun c hc => hl c (List.mem_cons.mpr (Or.inr hc))
    simp [List.dropWhile_cons, ha, ih has]

theorem create_full_html_empty_ne (frag : String) :
    create_full_html frag "" ≠ create_full_html frag "Converted Document" := by
  intro h
  have hl := congrArg String.length h
  simp only [create_full_html, String.length_append] at hl
  have h0 : ("" : String).length = 0 := rfl
  have h18 : ("Converted Document" : String).length = 18 := rfl
  rw [h0, h18] at hl
  omega

theorem embedImgTag_unavailable (dl : String → Option ImageData) (tag : ImgTag)
    (s : String) (hsrc : tag.src = some s) (hdl : dl s = none) :
    embedImgTag dl tag = tag := by
  unfold embedImgTag
  rw [hsrc]
  by_cases hs : s = ""
  · simp [hs]
  · simp [hs, hdl]

/- ------------------------------------------------------------------ -/
/- Claim theorems                                                      -/
/- ------------------------------------------------------------------ -/

/-- C1, counterexample: the claim states the resized height is
`round(original_height * max_width / original_width)` (round to nearest).
For a 2400x5 RGB image and max width 800 the exact ratio gives 5/3: the
claim demands height `2`, but `optimize_image` computes
`int(img.height * ratio)`, which truncates to `1`. -/
theorem c1_claim_counterexample :
    optimize_image (ImageData.encoded ImageFormat.PNG ⟨2400, 5, ImageMode.RGB⟩ 90 false) 800 85
      = ImageData.encoded ImageFormat.JPEG ⟨800, 1, ImageMode.RGB⟩ 85 true
    ∧ roundNearest (5 * 800) 2400 = 2
    ∧ (1 : Nat) ≠ 2 := by
  refine ⟨by decide, by decide, by decide⟩

/-- C1, amended: for every decodable image whose normalized mode is
JPEG-writable, if the width exceeds the max width the output is exactly
max width wide and `floor(original_height * max_width / original_width)`
high (truncation, not rounding to nearest); if the width does not exceed
the max width, the dimensions are left unchanged (no upscaling). -/
theorem c1_amended (data : ImageData) (img : PILImage) (mw q : Nat)
    (hdec : pilOpen data = some img)
    (hwr : jpegWritable (normalizedMode img.mode) = true) :
    (mw < img.width →
      optimize_image data mw q =
        ImageData.encoded ImageFormat.JPEG
          ⟨mw, img.height * mw / img.width, normalizedMode img.mode⟩ q true)
    ∧ (img.width ≤ mw →
      optimize_image data mw q =
        ImageData.encoded ImageFormat.JPEG
          ⟨img.width, img.height, normalizedMode img.mode⟩ q true) := by
  cases data with
  | raw bytes => simp [pilOpen] at hdec
  | encoded f i qq opt =>
    have hi : i = img := by simpa [pilOpen] using hdec
    subst hi
    unfold normalizedMode at hwr
    constructor
    · intro hlt
      unfold optimize_image pilOpen pilConvertRGB pilResize pilSaveJPEG normalizedMode
      by_cases hc : needsConvert i.mode
      · simp only [hc, if_true] at hwr ⊢
        simp [hlt, hwr]
      · simp only [hc, if_false, Bool.false_eq_true] at hwr ⊢
        simp [hlt, hwr]
    · intro hle
      have hnlt : ¬ mw < i.width := not_lt.mpr hle
      unfold optimize_image pilOpen pilConvertRGB pilResize pilSaveJPEG normalizedMode
      by_cases hc : needsConvert i.mode
      · simp only [hc, if_true] at hwr ⊢
        simp [hnlt, hwr]
      · simp only [hc, if_false, Bool.false_eq_true] at hwr ⊢
        simp [hnlt, hwr]

/-- C1 witness: a 1600x600 RGBA PNG under the defaults is flattened to RGB
and resized to 800x300 (floor of 600*800/1600). -/
theorem c1_amended_witness :
    optimize_image (ImageData.encoded ImageFormat.PNG ⟨1600, 600, ImageMode.RGBA⟩ 7 false) 800 85
      = ImageData.encoded ImageFormat.JPEG ⟨800, 300, ImageMode.RGB⟩ 85 true := by
  have h := (c1_amended
      (ImageData.encoded ImageFormat.PNG ⟨1600, 600, ImageMode.RGBA⟩ 7 false)
      ⟨1600, 600, ImageMode.RGBA⟩ 800 85 rfl (by decide)).1 (by decide)
  simpa using h

/-- C5: `optimize_image` never raises (it is a total function here); when
decoding fails it returns exactly the original bytes; when re-encoding
fails it returns exactly the original bytes; and on success its output is a
JPEG encoding (quality as given, encoder optimization on) regardless of the
input format. -/
theorem c5_optimize_image_fallback_and_jpeg (data : ImageData) (mw q : Nat) :
    (pilOpen data = none → optimize_image data mw q = data)
    ∧ (∀ img, pilOpen data = some img →
        jpegWritable (normalizedMode img.mode) = false →
        optimize_image data mw q = data)
    ∧ (∀ img, pilOpen data = some img →
        jpegWritable (normalizedMode img.mode) = true →
        ∃ i : PILImage,
          optimize_image data mw q = ImageData.encoded ImageFormat.JPEG i q true) := by
  refine ⟨?_, ?_, ?_⟩
  · intro hnone
    unfold optimize_image
    rw [hnone]
  · intro img hdec hwr
    cases data with
    | raw bytes => rfl
    | encoded f i qq opt =>
      have hi : i = img := by simpa [pilOpen] using hdec
      subst hi
      unfold normalizedMode at hwr
      unfold optimize_image pilOpen pilConvertRGB pilResize pilSaveJPEG
      by_cases hc : needsConvert i.mode
      · simp only [hc, if_true] at hwr ⊢
        by_cases hlt : mw < i.width <;> simp [hlt, hwr]
      · simp only [hc, if_false, Bool.false_eq_true] at hwr ⊢
        by_cases hlt : mw < i.width <;> simp [hlt, hwr]
  · intro img hdec hwr
    cases data with
    | raw bytes => simp [pilOpen] at hdec
    | encoded f i qq opt =>
      have hi : i = img := by simpa [pilOpen] using hdec
      subst hi
      unfold normalizedMode at hwr
      unfold optimize_image pilOpen pilConvertRGB pilResize pilSaveJPEG
      by_cases hc : needsConvert i.mode
      · simp only [hc, if_true] at hwr ⊢
        by_cases hlt : mw < i.width <;> simp [hlt, hwr]
      · simp only [hc, if_false, Bool.false_eq_true] at hwr ⊢
        by_cases hlt : mw < i.width <;> simp [hlt, hwr]

/-- C5 witness: undecodable bytes pass through unchanged; a decodable
mode-I BMP (not JPEG-writable) passes through unchanged; a paletted GIF is
re-encoded as a JPEG. -/
theorem c5_witness :
    optimize_image (ImageData.raw [0, 1]) 800 85 = ImageData.raw [0, 1]
    ∧ optimize_image (ImageData.encoded ImageFormat.BMP ⟨10, 10, ImageMode.I⟩ 9 false) 800 85
        = ImageData.encoded ImageFormat.BMP ⟨10, 10, ImageMode.I⟩ 9 false
    ∧ ∃ i : PILImage,
        optimize_image (ImageData.encoded ImageFormat.GIF ⟨10, 10, ImageMode.P⟩ 9 false) 800 85
          = ImageData.encoded ImageFormat.JPEG i 85 true := by
  refine ⟨?_, ?_, ?_⟩
  · exact (c5_optimize_image_fallback_and_jpeg (ImageData.raw [0, 1]) 800 85).1 rfl
  · exact (c5_optimize_image_fallback_and_jpeg
      (ImageData.encoded ImageFormat.BMP ⟨10, 10, ImageMode.I⟩ 9 false) 800 85).2.1
      ⟨10, 10, ImageMode.I⟩ rfl (by decide)
  · exact (c5_optimize_image_fallback_and_jpeg
      (ImageData.encoded ImageFormat.GIF ⟨10, 10, ImageMode.P⟩ 9 false) 800 85).2.2
      ⟨10, 10, ImageMode.P⟩ rfl (by decide)

/-- C6, counterexample: the default option set maps `margin-top` to
`0.75in`, not to `1in` as the claim states. -/
theorem c6_claim_counterexample :
    optFind "margin-top" pdf_options ≠ some (some "1in")
    ∧ optFind "margin-top" pdf_options = some (some "0.75in") := by
  refine ⟨by decide, by decide⟩

/-- C6, amended: the defaults map `page-size` to A4 and all four margins to
0.75 inch (not 1 inch), and whenever a conversion run invokes the renderer
it passes exactly this default option set. -/
theorem c6_amended :
    optFind "page-size" pdf_options = some (some "A4")
    ∧ optFind "margin-top" pdf_options = some (some "0.75in")
    ∧ optFind "margin-right" pdf_options = some (some "0.75in")
    ∧ optFind "margin-bottom" pdf_options = some (some "0.75in")
    ∧ optFind "margin-left" pdf_options = some (some "0.75in")
    ∧ ∀ (env : StageEnv) (unlinkOk : String → Bool) (p : String)
        (outp t : Option String) (temp0 disk0 : List String)
        (tf o : String) (opts : List (String × Option String)),
        (convert_to_pdf env unlinkOk p outp t temp0 disk0).renderArgs = some (tf, o, opts) →
        opts = pdf_options := by
  refine ⟨by decide, by decide, by decide, by decide, by decide, ?_⟩
  intro env unlinkOk p outp t temp0 disk0 tf o opts h
  have h2 : (convertBody env p outp t temp0 disk0).renderArgs = some (tf, o, opts) := h
  unfold convertBody at h2
  rcases hread : env.readFile p with _ | md
  · simp only [hread] at h2
    exact Option.noConfusion h2
  · simp only [hread] at h2
    rcases hmd : env.mdToHtml md with _ | html
    · simp only [hmd] at h2
      exact Option.noConfusion h2
    · simp only [hmd] at h2
      rcases hemb : env.embedHtml html p with _ | himg
      · simp only [hemb] at h2
        exact Option.noConfusion h2
      · simp only [hemb] at h2
        rcases htc : env.tempCreate with _ | tp
        · simp only [htc] at h2
          exact Option.noConfusion h2
        · simp only [htc] at h2
          by_cases hw : env.writeOk tp (create_full_html himg (effectiveTitle t p)) = true
          · rw [if_pos hw] at h2
            by_cases hr : env.renderOk = true
            · rw [if_pos hr] at h2
              exact (congrArg (fun x => x.2.2) (Option.some.inj h2)).symm
            · rw [if_neg hr] at h2
              exact (congrArg (fun x => x.2.2) (Option.some.inj h2)).symm
          · rw [if_neg hw] at h2
            exact Option.noConfusion h2

/-- C6 witness: a fully successful default run invokes the renderer with the
default option set. -/
theorem c6_amended_witness :
    (convert_to_pdf stagesAllOk (fun _ => true) "/docs/file.md" none none [] []).renderArgs
      = some ("/tmp/tmpabc.html", "/docs/file.pdf", pdf_options)
    ∧ pdf_options = pdf_options := by
  refine ⟨rfl, ?_⟩
  exact c6_amended.2.2.2.2.2 stagesAllOk (fun _ => true) "/docs/file.md" none none [] []
    "/tmp/tmpabc.html" "/docs/file.pdf" pdf_options rfl

/-- C9, counterexample: calling the assembler with an empty title string
does not produce the fallback-titled document; the fallback is a default
argument and applies only when the argument is omitted. -/
theorem c9_claim_counterexample :
    create_full_html "x" "" ≠ create_full_html "x" "Converted Document" :=
  create_full_html_empty_ne "x"

/-- C9, amended: with an empty title string the assembled document embeds
the empty title verbatim (the `<title>` element is empty: the chunk before
the title ends with `<title>` and the chunk after it starts with
`</title>`), which differs from the fallback-titled document; the fallback
`"Converted Document"` is only the default value of the omitted argument. -/
theorem c9_amended (frag : String) :
    create_full_html frag "" =
      fullHtmlHead ++ fullHtmlAfterTitle ++ css_styles ++ fullHtmlAfterCss ++ frag ++ fullHtmlTail
    ∧ create_full_html frag createFullHtmlDefaultTitle =
      fullHtmlHead ++ "Converted Document" ++ fullHtmlAfterTitle ++ css_styles
        ++ fullHtmlAfterCss ++ frag ++ fullHtmlTail
    ∧ create_full_html frag "" ≠ create_full_html frag "Converted Document" := by
  refine ⟨?_, rfl, create_full_html_empty_ne frag⟩
  unfold create_full_html
  simp [String.append_assoc]

/-- C9 witness: the amended statement instantiated at a concrete fragment. -/
theorem c9_amended_witness :
    create_full_html "y" "" =
      fullHtmlHead ++ fullHtmlAfterTitle ++ css_styles ++ fullHtmlAfterCss ++ "y" ++ fullHtmlTail :=
  (c9_amended "y").1

/-- C2: the embedder is total (it always returns a document of the same
length), an image element whose reference resolves as unavailable is left
completely unchanged at its position, and every element is processed
independently of every other (so one failure never blocks the rest). -/
theorem c2_embed_unavailable_untouched (fs : String → Option ImageData)
    (http : String → HttpOutcome) (bp : Option String) (doc : List HtmlNode) :
    (embed_images_in_html fs http doc bp).length = doc.length
    ∧ (∀ (i : Nat) (tag : ImgTag) (s : String),
        doc[i]? = some (HtmlNode.img tag) → tag.src = some s →
        download_image fs http s bp = none →
        (embed_images_in_html fs http doc bp)[i]? = some (HtmlNode.img tag))
    ∧ (∀ i : Nat, (embed_images_in_html fs http doc bp)[i]?
        = Option.map (embedNode fs http bp) doc[i]?) := by
  refine ⟨by simp [embed_images_in_html], ?_, ?_⟩
  · intro i tag s hdoc hsrc hdl
    have hmap : (embed_images_in_html fs http doc bp)[i]?
        = Option.map (embedNode fs http bp) doc[i]? :=
      List.getElem?_map (embedNode fs http bp) doc i
    rw [hmap, hdoc]
    have htag : embedImgTag (fun u => download_image fs http u bp) tag = tag :=
      embedImgTag_unavailable _ tag s hsrc hdl
    simp [embedNode, htag]
  · intro i
    exact List.getElem?_map (embedNode fs http bp) doc i

/-- C2 witness: on a document with a text node and an image whose relative
reference resolves to a missing file, the image element is returned
unchanged at its position. -/
theorem c2_witness :
    (embed_images_in_html fsEmpty httpDown docBroken (some "/docs/file.md"))[1]?
      = some (HtmlNode.img tagBrokenImage) :=
  (c2_embed_unavailable_untouched fsEmpty httpDown (some "/docs/file.md") docBroken).2.1
    1 tagBrokenImage "images/a.png" rfl rfl rfl

theorem strStarts_data_ne_empty (s : String) (h : strStarts s "data:" = true) : s ≠ "" := by
  intro he
  subst he
  exact Bool.noConfusion h

theorem strStarts_data_not_network (s : String) (h : strStarts s "data:" = true) :
    isNetworkUrl s = false := by
  unfold strStarts at h
  unfold isNetworkUrl strStarts
  obtain ⟨a, as, hsd⟩ : ∃ a as, s.data = a :: as := by
    cases hsd : s.data with
    | nil => rw [hsd] at h; exact Bool.noConfusion h
    | cons a as => exact ⟨a, as, rfl⟩
  rw [hsd] at h ⊢
  have hda : ("data:" : String).data = 'd' :: 'a' :: 't' :: 'a' :: ':' :: [] := rfl
  rw [hda, leadMatch_cons, Bool.and_eq_true] at h
  have ha : a = 'd' := eq_of_beq h.1
  subst ha
  have hh : ("http://" : String).data = 'h' :: 't' :: 't' :: 'p' :: ':' :: '/' :: '/' :: [] := rfl
  have hs : ("https://" : String).data = 'h' :: 't' :: 't' :: 'p' :: 's' :: ':' :: '/' :: '/' :: [] := rfl
  rw [hh, hs, leadMatch_cons, leadMatch_cons]
  have hdh : ('d' == 'h') = false := by decide
  rw [hdh]
  simp

/-- C8: on a document all of whose image sources are data URIs that do not
resolve to existing local files, the embedder is a no-op (a `data:` source
is not network-schemed, is looked up as a local path and found unavailable,
and the element is left unchanged without crashing), and hence running the
embedder twice gives the same output as running it once. -/
theorem c8_embed_data_uri_noop (fs : String → Option ImageData)
    (http : String → HttpOutcome) (bp : Option String) (doc : List HtmlNode)
    (h : ∀ (tag : ImgTag) (s : String), HtmlNode.img tag ∈ doc → tag.src = some s →
        strStarts s "data:" = true ∧ fs (resolveLocalPath s bp) = none) :
    embed_images_in_html fs http doc bp = doc
    ∧ embed_images_in_html fs http (embed_images_in_html fs http doc bp) bp
        = embed_images_in_html fs http doc bp := by
  have h1 : embed_images_in_html fs http doc bp = doc := by
    induction doc with
    | nil => rfl
    | cons node rest ih =>
      have hrest : embed_images_in_html fs http rest bp = rest :=
        ih (fun tag s hm hs => h tag s (List.mem_cons.mpr (Or.inr hm)) hs)
      cases node with
      | text content =>
        simpa [embed_images_in_html, embedNode] using hrest
      | img tag =>
        have htag : embedImgTag (fun u => download_image fs http u bp) tag = tag := by
          cases hsrc : tag.src with
          | none => unfold embedImgTag; rw [hsrc]
          | some s =>
            have hprop := h tag s (List.mem_cons.mpr (Or.inl rfl)) hsrc
            have hdl : download_image fs http s bp = none := by
              unfold download_image
              rw [strStarts_data_not_network s hprop.1]
              simpa using hprop.2
            exact embedImgTag_unavailable _ tag s hsrc hdl
        have : embedNode fs http bp (HtmlNode.img tag) = HtmlNode.img tag := by
          simp [embedNode, htag]
        simpa [embed_images_in_html, this] using hrest
  exact ⟨h1, by simp [h1]⟩

/-- C8 witness: a document whose single image already carries a data-URI
source is returned unchanged by the embedder. -/
theorem c8_witness :
    embed_images_in_html fsEmpty httpDown docDataUri (some "/docs/file.md") = docDataUri :=
  (c8_embed_data_uri_noop fsEmpty httpDown (some "/docs/file.md") docDataUri
    (by
      intro tag s hm hs
      have htag : tag = tagDataUri := by
        simpa [docDataUri] using hm
      subst htag
      have hse : s = "data:image/jpeg;base64,AAAA" := by
        simpa [tagDataUri] using hs.symm
      subst hse
      exact ⟨by decide, rfl⟩)).1

/-- C10: the embedder invokes the transcoder with the built-in defaults
(max width 800, quality 85): a successfully resolved, truthy image is
rewritten to the data URI of `optimize_image` applied with exactly 800 and
85 — for every filesystem, network, base path and tag, with no parameter
anywhere to change these constants — and the whole-document embedder is
the elementwise map of that element transform. -/
theorem c10_embed_uses_default_constraints (fs : String → Option ImageData)
    (http : String → HttpOutcome) (bp : Option String) (tag : ImgTag)
    (s : String) (b : ImageData) (hsrc : tag.src = some s) (hne : s ≠ "")
    (hdl : download_image fs http s bp = some b) (htr : imageDataTruthy b = true) :
    (embedImgTag (fun u => download_image fs http u bp) tag).src
      = some ("data:image/jpeg;base64," ++ b64String (imageBytes (optimize_image b 800 85)))
    ∧ maxWidthDefault = 800 ∧ qualityDefault = 85
    ∧ ∀ doc, embed_images_in_html fs http doc bp = List.map (embedNode fs http bp) doc := by
  refine ⟨?_, rfl, rfl, fun doc => rfl⟩
  unfold embedImgTag
  rw [hsrc]
  simp [hne, hdl, htr, maxWidthDefault, qualityDefault]

/-- C10 witness: a relative reference resolving to an existing 10x10 PNG is
rewritten to the base64 data URI of the transcoder output at max width
800 and quality 85. -/
theorem c10_witness :
    (embedImgTag (fun u => download_image fsOneImage httpDown u (some "/docs/file.md"))
        tagLocalImage).src
      = some ("data:image/jpeg;base64," ++ b64String (imageBytes (optimize_image
          (ImageData.encoded ImageFormat.PNG ⟨10, 10, ImageMode.RGB⟩ 9 false) 800 85))) :=
  (c10_embed_uses_default_constraints fsOneImage httpDown (some "/docs/file.md")
    tagLocalImage "images/b.png"
    (ImageData.encoded ImageFormat.PNG ⟨10, 10, ImageMode.RGB⟩ 9 false)
    rfl (by decide) (by decide) rfl).1

/-- C4: `download_image` is a total function of its oracles (no exception
escapes).  For a network-schemed reference: a transport failure yields
`None`; a response with a non-success status (400–599, the statuses
`raise_for_status` raises on) yields `None`; a success response yields the
raw body bytes.  For a non-network reference: the result is exactly the
filesystem lookup of the resolved local path (bytes when it exists, `None`
when missing), and when a base path is given and the reference is relative,
the resolved path joins the reference onto the directory of the source
document. -/
theorem c4_download_image_cases (fs : String → Option ImageData)
    (http : String → HttpOutcome) (url : String) (bp : Option String) :
    (isNetworkUrl url = true →
      (http url = HttpOutcome.failure → download_image fs http url bp = none)
      ∧ ∀ status body, http url = HttpOutcome.response status body →
          ((400 ≤ status ∧ status < 600) → download_image fs http url bp = none)
          ∧ (¬(400 ≤ status ∧ status < 600) → download_image fs http url bp = some body))
    ∧ (isNetworkUrl url = false →
      download_image fs http url bp = fs (resolveLocalPath url bp)
      ∧ (basePathTruthy bp = true → isAbsPath url = false →
          resolveLocalPath url bp = pyPathJoin (pyDirname (bp.getD "")) url)) := by
  constructor
  · intro hnet
    unfold download_image
    rw [hnet]
    constructor
    · intro hf
      rw [hf]
      simp
    · intro status body hr
      rw [hr]
      constructor
      · intro hc
        simp [hc]
      · intro hc
        simp [hc]
  · intro hnet
    constructor
    · unfold download_image
      rw [hnet]
      simp
    · intro htr habs
      unfold resolveLocalPath
      rw [htr, habs]
      simp

/-- C4 witness: a 404 and a transport error both yield `None`; a 200
response yields its body; a missing relative local file yields the
filesystem lookup of the joined path, and the joined path is the source
directory plus the reference. -/
theorem c4_witness :
    download_image fsEmpty http404 "http://example.com/a.png" none = none
    ∧ download_image fsEmpty httpDown "http://example.com/a.png" none = none
    ∧ download_image fsEmpty http200 "http://example.com/a.png" none
        = some (ImageData.encoded ImageFormat.PNG ⟨20, 20, ImageMode.P⟩ 9 false)
    ∧ download_image fsEmpty httpDown "images/a.png" (some "/docs/file.md")
        = fsEmpty (resolveLocalPath "images/a.png" (some "/docs/file.md"))
    ∧ resolveLocalPath "images/a.png" (some "/docs/file.md")
        = pyPathJoin (pyDirname "/docs/file.md") "images/a.png" := by
  refine ⟨?_, ?_, ?_, ?_, ?_⟩
  · exact (((c4_download_image_cases fsEmpty http404 "http://example.com/a.png" none).1
      (by decide)).2 404 (ImageData.raw []) rfl).1 (by decide)
  · exact ((c4_download_image_cases fsEmpty httpDown "http://example.com/a.png" none).1
      (by decide)).1 rfl
  · exact (((c4_download_image_cases fsEmpty http200 "http://example.com/a.png" none).1
      (by decide)).2 200 (ImageData.encoded ImageFormat.PNG ⟨20, 20, ImageMode.P⟩ 9 false)
      rfl).2 (by decide)
  · exact ((c4_download_image_cases fsEmpty httpDown "images/a.png" (some "/docs/file.md")).2
      (by decide)).1
  · exact ((c4_download_image_cases fsEmpty httpDown "images/a.png" (some "/docs/file.md")).2
      (by decide)).2 (by decide) (by decide)

theorem cleanup_sub (u : String → Bool) :
    ∀ (l d : List String) (x : String), x ∈ cleanup u l d → x ∈ d := by
  intro l
  induction l with
  | nil =>
    intro d x h
    simpa [cleanup] using h
  | cons f rest ih =>
    intro d x h
    unfold cleanup at h
    have hx := ih _ x h
    by_cases hf : f ∈ d
    · by_cases hu : u f = true
      · simp only [hf, if_true, hu] at hx
        exact (List.mem_filter.mp hx).1
      · simp only [hf, if_true, hu, if_false] at hx
        exact hx
    · simp only [hf, if_false] at hx
      exact hx

theorem cleanup_removes (u : String → Bool) :
    ∀ (l d : List String) (f : String), f ∈ l → u f = true → f ∉ cleanup u l d := by
  intro l
  induction l with
  | nil =>
    intro d f h
    simp at h
  | cons g rest ih =>
    intro d f hmem hu hfin
    unfold cleanup at hfin
    rcases List.mem_cons.mp hmem with heq | hrest
    · subst heq
      by_cases hf : f ∈ d
      · simp only [hf, if_true, hu] at hfin
        have hx := cleanup_sub u rest _ f hfin
        have hx2 := (List.mem_filter.mp hx).2
        simp at hx2
      · simp only [hf, if_false] at hfin
        exact hf (cleanup_sub u rest d f hfin)
    · exact ih _ f hrest hu hfin

theorem convertBody_created_mem (env : StageEnv) (p : String)
    (outp t : Option String) (temp0 disk0 : List String)
    (hwrite : ∀ pa c, env.writeOk pa c = true) (tf : String)
    (hct : (convertBody env p outp t temp0 disk0).createdTemp = some tf) :
    tf ∈ (convertBody env p outp t temp0 disk0).temp_files := by
  unfold convertBody at hct ⊢
  rcases hread : env.readFile p with _ | md
  · simp only [hread] at hct
    exact Option.noConfusion hct
  · simp only [hread] at hct ⊢
    rcases hmd : env.mdToHtml md with _ | html
    · simp only [hmd] at hct
      exact Option.noConfusion hct
    · simp only [hmd] at hct ⊢
      rcases hemb : env.embedHtml html p with _ | himg
      · simp only [hemb] at hct
        exact Option.noConfusion hct
      · simp only [hemb] at hct ⊢
        rcases htc : env.tempCreate with _ | tp
        · simp only [htc] at hct
          exact Option.noConfusion hct
        · simp only [htc] at hct ⊢
          rw [if_pos (hwrite tp (create_full_html himg (effectiveTitle t p)))] at hct ⊢
          by_cases hr : env.renderOk = true
          · rw [if_pos hr] at hct ⊢
            have := Option.some.inj hct
            subst this
            simp
          · rw [if_neg hr] at hct ⊢
            have := Option.some.inj hct
            subst this
            simp

/-- C3, counterexample: when writing the temporary HTML file raises an
exception after `NamedTemporaryFile` has already created the file on disk,
the path was never appended to `self.temp_files`, so the cleanup in
`finally` does not delete it and the run leaks the file: a run exists on
which the temporary file created by the run survives every cleanup. -/
theorem c3_claim_counterexample :
    (convert_to_pdf stagesWriteFails (fun _ => true) "/docs/file.md" none none [] []).createdTemp
      = some "/tmp/tmpabc.html"
    ∧ "/tmp/tmpabc.html"
        ∈ (convert_to_pdf stagesWriteFails (fun _ => true) "/docs/file.md" none none [] []).disk
    ∧ (convert_to_pdf stagesWriteFails (fun _ => true) "/docs/file.md" none none [] []).result
      = Except.error "Error converting to PDF: writing temporary file failed" := by
  refine ⟨rfl, ?_, rfl⟩
  have hd : (convert_to_pdf stagesWriteFails (fun _ => true) "/docs/file.md" none none [] []).disk
      = ["/tmp/tmpabc.html"] := rfl
  rw [hd]
  exact List.mem_singleton.mpr rfl

/-- C3, amended: whenever the write to the temporary file succeeds (so the
file is registered in `self.temp_files`) and its removal succeeds, the
temporary file created by the run is gone from disk when control returns —
on every exit path, renderer failure included; the cleanup itself is a total
function (it never throws) and the job result does not depend on it (the
outcome is identical under any unlink behavior).  If the write itself
raises, the created file can leak (see the counterexample). -/
theorem c3_amended (env : StageEnv) (unlinkOk : String → Bool)
    (p : String) (outp t : Option String) (temp0 disk0 : List String)
    (hwrite : ∀ pa c, env.writeOk pa c = true)
    (hunlink : ∀ f, unlinkOk f = true) :
    (∀ tf, (convert_to_pdf env unlinkOk p outp t temp0 disk0).createdTemp = some tf →
        tf ∉ (convert_to_pdf env unlinkOk p outp t temp0 disk0).disk)
    ∧ (∀ u2 : String → Bool,
        (convert_to_pdf env unlinkOk p outp t temp0 disk0).result
          = (convert_to_pdf env u2 p outp t temp0 disk0).result)
    ∧ (convert_to_pdf env unlinkOk p outp t temp0 disk0).temp_files = [] := by
  refine ⟨?_, fun u2 => rfl, rfl⟩
  intro tf hct
  have hmem : tf ∈ (convertBody env p outp t temp0 disk0).temp_files :=
    convertBody_created_mem env p outp t temp0 disk0 hwrite tf hct
  exact cleanup_removes unlinkOk _ _ tf hmem (hunlink tf)

/-- C3 witness: on a fully successful run the created temporary file is not
on disk afterwards. -/
theorem c3_amended_witness :
    "/tmp/tmpabc.html"
      ∉ (convert_to_pdf stagesAllOk (fun _ => true) "/docs/file.md" none none [] []).disk :=
  (c3_amended stagesAllOk (fun _ => true) "/docs/file.md" none none [] []
    (fun _ _ => rfl) (fun _ => rfl)).1 "/tmp/tmpabc.html" rfl

theorem splitPath_data (d n e : String) :
    (d ++ "/" ++ n ++ "." ++ e).data = d.data ++ '/' :: (n.data ++ '.' :: e.data) := by
  have h1 : ("/" : String).data = ['/'] := rfl
  have h2 : ("." : String).data = ['.'] := rfl
  simp [String.data_append, h1, h2]

theorem no_slash_all (n e : String) (hn1 : '/' ∉ n.data) (he1 : '/' ∉ e.data) :
    ∀ c ∈ (n.data ++ '.' :: e.data).reverse, decide (c ≠ '/') = true := by
  intro c hc
  rw [List.mem_reverse] at hc
  rcases List.mem_append.mp hc with h | h
  · exact decide_eq_true (fun hce => hn1 (hce ▸ h))
  · rcases List.mem_cons.mp h with h2 | h2
    · subst h2; decide
    · exact decide_eq_true (fun hce => he1 (hce ▸ h2))

theorem pathName_split (d n e : String) (hn1 : '/' ∉ n.data) (he1 : '/' ∉ e.data) :
    (pathName (d ++ "/" ++ n ++ "." ++ e)).data = n.data ++ '.' :: e.data := by
  unfold pathName
  rw [splitPath_data]
  rw [List.reverse_append, List.reverse_cons, List.append_assoc, List.singleton_append]
  rw [takeWhile_all_append _ _ (no_slash_all n e hn1 he1) '/' (by decide)]
  rw [List.reverse_reverse]

theorem pathStem_split (d n e : String)
    (hn0 : n.data ≠ []) (hn1 : '/' ∉ n.data) (_hn2 : '.' ∉ n.data)
    (he0 : e.data ≠ []) (he1 : '/' ∉ e.data) (he2 : '.' ∉ e.data) :
    pathStem (d ++ "/" ++ n ++ "." ++ e) = n := by
  have hnp : 0 < n.data.length := List.length_pos.mpr hn0
  have hep : 0 < e.data.length := List.length_pos.mpr he0
  unfold pathStem
  rw [pathName_split d n e hn1 he1]
  have hrev : (n.data ++ '.' :: e.data).reverse = e.data.reverse ++ '.' :: n.data.reverse := by
    rw [List.reverse_append, List.reverse_cons, List.append_assoc, List.singleton_append]
  have hdotfree : ∀ c ∈ e.data.reverse, decide (c ≠ '.') = true := by
    intro c hc
    rw [List.mem_reverse] at hc
    exact decide_eq_true (fun hce => he2 (hce ▸ hc))
  simp only [stemOfName]
  rw [hrev, takeWhile_all_append _ _ hdotfree '.' (by decide)]
  rw [List.length_reverse, List.length_append, List.length_cons]
  rw [if_neg (by omega)]
  rw [if_pos (by constructor <;> omega)]
  have hi : n.data.length + (e.data.length + 1) - e.data.length - 1 = n.data.length := by omega
  rw [hi, List.take_left]

theorem pathParentStr_split (d n e : String)
    (hn1 : '/' ∉ n.data) (he1 : '/' ∉ e.data) (hd0 : d.data ≠ []) :
    pathParentStr (d ++ "/" ++ n ++ "." ++ e) = d := by
  simp only [pathParentStr]
  rw [splitPath_data]
  rw [List.reverse_append, List.reverse_cons, List.append_assoc, List.singleton_append]
  rw [dropWhile_all_append _ _ (no_slash_all n e hn1 he1) '/' (by decide)]
  rw [List.reverse_cons, List.reverse_reverse]
  rw [if_neg (by simp)]
  rw [if_neg (by
    intro hcontra
    have hlen := congrArg List.length hcontra
    simp at hlen
    exact hd0 (List.eq_nil_of_length_eq_zero hlen))]
  rw [List.dropLast_concat]

theorem pathlibJoin_plain (a b : String) (ha1 : a ≠ ".") (ha2 : a ≠ "/") :
    pathlibJoin a b = a ++ "/" ++ b := by
  unfold pathlibJoin
  rw [if_neg ha1, if_neg ha2]

theorem convertBody_ghosts (env : StageEnv) (p : String) (outp t : Option String)
    (temp0 disk0 : List String) :
    (∀ tf o opts, (convertBody env p outp t temp0 disk0).renderArgs = some (tf, o, opts) →
        o = effectiveOutPath outp p)
    ∧ (∀ s, (convertBody env p outp t temp0 disk0).titleUsed = some s →
        s = effectiveTitle t p) := by
  constructor
  · intro tf o opts h2
    unfold convertBody at h2
    rcases hread : env.readFile p with _ | md
    · simp only [hread] at h2
      exact Option.noConfusion h2
    · simp only [hread] at h2
      rcases hmd : env.mdToHtml md with _ | html
      · simp only [hmd] at h2
        exact Option.noConfusion h2
      · simp only [hmd] at h2
        rcases hemb : env.embedHtml html p with _ | himg
        · simp only [hemb] at h2
          exact Option.noConfusion h2
        · simp only [hemb] at h2
          rcases htc : env.tempCreate with _ | tp
          · simp only [htc] at h2
            exact Option.noConfusion h2
          · simp only [htc] at h2
            by_cases hw : env.writeOk tp (create_full_html himg (effectiveTitle t p)) = true
            · rw [if_pos hw] at h2
              by_cases hr : env.renderOk = true
              · rw [if_pos hr] at h2
                exact (congrArg (fun x => x.2.1) (Option.some.inj h2)).symm
              · rw [if_neg hr] at h2
                exact (congrArg (fun x => x.2.1) (Option.some.inj h2)).symm
            · rw [if_neg hw] at h2
              exact Option.noConfusion h2
  · intro s h2
    unfold convertBody at h2
    rcases hread : env.readFile p with _ | md
    · simp only [hread] at h2
      exact Option.noConfusion h2
    · simp only [hread] at h2
      rcases hmd : env.mdToHtml md with _ | html
      · simp only [hmd] at h2
        exact Option.noConfusion h2
      · simp only [hmd] at h2
        rcases hemb : env.embedHtml html p with _ | himg
        · simp only [hemb] at h2
          exact Option.noConfusion h2
        · simp only [hemb] at h2
          rcases htc : env.tempCreate with _ | tp
          · simp only [htc] at h2
            exact (Option.some.inj h2).symm
          · simp only [htc] at h2
            by_cases hw : env.writeOk tp (create_full_html himg (effectiveTitle t p)) = true
            · rw [if_pos hw] at h2
              by_cases hr : env.renderOk = true
              · rw [if_pos hr] at h2
                exact (Option.some.inj h2).symm
              · rw [if_neg hr] at h2
                exact (Option.some.inj h2).symm
            · rw [if_neg hw] at h2
              exact (Option.some.inj h2).symm

/-- C7: for a source path of the form `dir/name.ext` (no slashes or dots in
name and extension, a normal directory prefix), when the destination is
omitted (or empty, equally falsy), any renderer invocation of the run
writes to `dir/name.pdf` — the source path with its extension replaced —
and when the title is unset (or empty), the document title used is the
stem `name` of the source filename. -/
theorem c7_default_output_and_title (env : StageEnv) (unlinkOk : String → Bool)
    (d n e : String) (outp t : Option String) (temp0 disk0 : List String)
    (hn0 : n.data ≠ []) (hn1 : '/' ∉ n.data) (hn2 : '.' ∉ n.data)
    (he0 : e.data ≠ []) (he1 : '/' ∉ e.data) (he2 : '.' ∉ e.data)
    (hd0 : d.data ≠ []) (hdDot : d ≠ ".") (hdSl : d ≠ "/")
    (houtp : outp = none ∨ outp = some "") (htitle : t = none ∨ t = some "") :
    (∀ tf o opts,
      (convert_to_pdf env unlinkOk (d ++ "/" ++ n ++ "." ++ e) outp t temp0 disk0).renderArgs
        = some (tf, o, opts) → o = d ++ "/" ++ n ++ ".pdf")
    ∧ (∀ s,
      (convert_to_pdf env unlinkOk (d ++ "/" ++ n ++ "." ++ e) outp t temp0 disk0).titleUsed
        = some s → s = n) := by
  have hstem : pathStem (d ++ "/" ++ n ++ "." ++ e) = n :=
    pathStem_split d n e hn0 hn1 hn2 he0 he1 he2
  have hparent : pathParentStr (d ++ "/" ++ n ++ "." ++ e) = d :=
    pathParentStr_split d n e hn1 he1 hd0
  have hout : effectiveOutPath outp (d ++ "/" ++ n ++ "." ++ e) = d ++ "/" ++ n ++ ".pdf" := by
    have hjoin : pathlibJoin d (n ++ ".pdf") = d ++ "/" ++ n ++ ".pdf" := by
      rw [pathlibJoin_plain d (n ++ ".pdf") hdDot hdSl, ← String.append_assoc]
    rcases houtp with h | h <;>
      simp [effectiveOutPath, h, hstem, hparent, hjoin]
  have htit : effectiveTitle t (d ++ "/" ++ n ++ "." ++ e) = n := by
    rcases htitle with h | h <;> simp [effectiveTitle, h, hstem]
  have hg := convertBody_ghosts env (d ++ "/" ++ n ++ "." ++ e) outp t temp0 disk0
  constructor
  · intro tf o opts h
    have h2 : (convertBody env (d ++ "/" ++ n ++ "." ++ e) outp t temp0 disk0).renderArgs
        = some (tf, o, opts) := h
    rw [hg.1 tf o opts h2]
    exact hout
  · intro s h
    have h2 : (convertBody env (d ++ "/" ++ n ++ "." ++ e) outp t temp0 disk0).titleUsed
        = some s := h
    rw [hg.2 s h2]
    exact htit

/-- C7 witness: a successful default run on `/docs/file.md` renders to
`/docs/file.pdf` and titles the document `file`. -/
theorem c7_witness :
    "/docs/file.pdf" = "/docs" ++ "/" ++ "file" ++ ".pdf" ∧ ("file" : String) = "file" := by
  have h := c7_default_output_and_title stagesAllOk (fun _ => true) "/docs" "file" "md"
    none none [] [] (by decide) (by decide) (by decide) (by decide) (by decide) (by decide)
    (by decide) (by decide) (by decide) (Or.inl rfl) (Or.inl rfl)
  exact ⟨h.1 "/tmp/tmpabc.html" "/docs/file.pdf" pdf_options rfl, h.2 "file" rfl⟩

end MarkdownToPDFConverter
